import Mathlib

/-!
Shallow embedding of the shipyard API client (`client/client.go`).

The Go client issues authenticated HTTP requests against a remote
cluster-management API and decodes JSON responses. The external HTTP
transport and the outcome of `http.NewRequest` are modelled as an abstract
`World`; the side effect of issuing a request is recorded as an explicit
trace of issued requests, and the manager value is threaded through every
operation so that (im)mutability of the client state is statable.
-/

namespace Shipyard

/-- Modelled from the spec: the configuration record (`ShipyardConfig`) is
referenced by `client.go` but defined elsewhere in the repository; per the
spec it is an immutable value holding the base URL, an optional service-key
credential and an optional (username, token) credential pair. Field names
follow their uses in `client.go` (`m.config.Url`, `.ServiceKey`,
`.Username`, `.Token`). -/
structure ShipyardConfig where
  Url : String
  ServiceKey : String
  Username : String
  Token : String
deriving Repr, DecidableEq

/-- The `Manager` struct of `client.go`: a `baseUrl` field (declared in the
source but never assigned, hence the Go zero value `""`) and the
configuration. The Go field is a pointer `*ShipyardConfig`; no code in the
package writes through it, so it is embedded as a value. -/
structure Manager where
  baseUrl : String
  config : ShipyardConfig
deriving Repr, DecidableEq

/-- `NewManager` from `client.go`: stores the configuration, leaves
`baseUrl` at its zero value. -/
def NewManager (cfg : ShipyardConfig) : Manager :=
  { baseUrl := "", config := cfg }

/-- `buildUrl` from `client.go`: `fmt.Sprintf("%s%s", m.config.Url, path)`,
i.e. plain string concatenation. -/
def buildUrl (m : Manager) (path : String) : String :=
  m.config.Url ++ path

/-- A Go `error` value as it appears in this client.  Constructors record
the provenance of the error value: the sentinel `shipyard.ErrUnauthorized`,
a generic `errors.New(msg)`, an error produced by the JSON codec, and an
arbitrary error value supplied by an external collaborator
(`http.NewRequest`, the transport, or a body read). -/
inductive GoError where
  | unauthorized
  | newError (msg : String)
  | decodeError (msg : String)
  | other (msg : String)
deriving Repr, DecidableEq

/-- An outgoing HTTP request as this client builds it: method, full URL,
the headers this client sets, and the body bytes (Go wraps the `[]byte`
in a `bytes.Buffer`; a nil slice yields an empty buffer). -/
structure HttpRequest where
  method : String
  url : String
  headers : List (String × String)
  body : String
deriving Repr, DecidableEq

/-- An HTTP response as seen by this client: the status code (a Go `int`)
and the outcome of reading the body stream to completion
(`ioutil.ReadAll` / the JSON decoder read the same stream; a failing
stream yields the read error). -/
structure HttpResponse where
  statusCode : Int
  bodyRead : Except GoError String
deriving Repr

/-- The external collaborators of the executor: the outcome of
`http.NewRequest(method, url, ...)` (an error, or none on success) and the
transport `http.DefaultClient.Do` mapping the issued request to either a
transport error or a response. -/
structure World where
  newRequest : String → String → Option GoError
  respond : HttpRequest → Except GoError HttpResponse

/-- The pair returned by `doRequest`: Go returns `(resp, nil)` on success
(resp always non-nil there) and `(resp-or-nil, err)` on failure. -/
inductive DoResult where
  | success (resp : HttpResponse)
  | failure (resp : Option HttpResponse) (e : GoError)
deriving Repr

/-- Output of the embedded `doRequest`: its Go return value, the trace of
requests issued through the transport (the network side effect made
explicit), and the manager value after the call (threaded explicitly so
that absence of mutation is a theorem, not an assumption). -/
structure ExecOut where
  result : DoResult
  trace : List HttpRequest
  manager : Manager
deriving Repr

/-- The request `doRequest` builds: URL from `buildUrl`, then exactly one
`req.Header.Add` — the service-key header when `m.config.ServiceKey` is
non-empty, otherwise the access-token header
`fmt.Sprintf("%s:%s", username, token)`. -/
def mkRequest (m : Manager) (path method : String) (b : Option String) : HttpRequest :=
  { method := method
    url := buildUrl m path
    headers :=
      if m.config.ServiceKey ≠ "" then
        [("X-Service-Key", m.config.ServiceKey)]
      else
        [("X-Access-Token", m.config.Username ++ ":" ++ m.config.Token)]
    body := match b with | none => "" | some s => s }

/-- `doRequest` from `client.go`, line by line:
build the URL; `http.NewRequest` (on error return `(nil, err)` without
issuing anything); attach the single auth header; `http.DefaultClient.Do`
(on error return `(nil, err)`); if `resp.StatusCode == 401` return
`(resp, shipyard.ErrUnauthorized)`; if `resp.StatusCode != expectedStatus`
read the whole body — on read error return `(nil, err)`, otherwise return
`(resp, errors.New(string(c)))`; else return `(resp, nil)`. -/
def doRequest (w : World) (m : Manager) (path method : String)
    (expectedStatus : Int) (b : Option String) : ExecOut :=
  let url := buildUrl m path
  match w.newRequest method url with
  | some e => ⟨.failure none e, [], m⟩
  | none =>
    let req := mkRequest m path method b
    match w.respond req with
    | .error e => ⟨.failure none e, [req], m⟩
    | .ok resp =>
      if resp.statusCode = 401 then
        ⟨.failure (some resp) .unauthorized, [req], m⟩
      else if resp.statusCode ≠ expectedStatus then
        match resp.bodyRead with
        | .error e => ⟨.failure none e, [req], m⟩
        | .ok c => ⟨.failure (some resp) (.newError c), [req], m⟩
      else
        ⟨.success resp, [req], m⟩

/-! ### JSON codec

The client uses `encoding/json` as a black-box codec.  It is embedded as a
JSON value type together with a renderer (for `json.Marshal`) and a
parser (for `json.NewDecoder(resp.Body).Decode`), faithful to the
documented behaviour of `encoding/json` on the shapes this client
exchanges. -/

/-- A JSON value (numbers restricted to integers; this client never
exchanges fractional numbers). -/
inductive Json where
  | jnull
  | jtrue
  | jfalse
  | jnum (n : Int)
  | jstr (s : String)
  | jarr (xs : List Json)
  | jobj (fields : List (String × Json))
deriving Repr

/-- The literal characters that the token rules of this development spell
via code points: quote, backslash and the two curly braces. -/
def quoteChar : Char := Char.ofNat 34

def backslashChar : Char := Char.ofNat 92

def lbraceChar : Char := Char.ofNat 123

def rbraceChar : Char := Char.ofNat 125

/-- Render a JSON string literal (escaping quotes and backslashes, the
only escapes the values in this development can contain). -/
def renderString (s : String) : String :=
  String.mk (quoteChar ::
    (s.data.foldr
      (fun c acc =>
        if c = quoteChar ∨ c = backslashChar then backslashChar :: c :: acc
        else c :: acc)
      [quoteChar]))

mutual

/-- `json.Marshal` on the modelled JSON values. -/
def renderJson : Json → String
  | .jnull => "null"
  | .jtrue => "true"
  | .jfalse => "false"
  | .jnum n => toString n
  | .jstr s => renderString s
  | .jarr xs => "[" ++ renderArr xs ++ "]"
  | .jobj fs => "\x7b" ++ renderObj fs ++ "\x7d"

def renderArr : List Json → String
  | [] => ""
  | [x] => renderJson x
  | x :: xs => renderJson x ++ "," ++ renderArr xs

def renderObj : List (String × Json) → String
  | [] => ""
  | [(k, v)] => renderString k ++ ":" ++ renderJson v
  | (k, v) :: fs => renderString k ++ ":" ++ renderJson v ++ "," ++ renderObj fs

end

/-- JSON insignificant whitespace. -/
def skipWs : List Char → List Char
  | c :: cs =>
    if c = ' ' ∨ c = '\t' ∨ c = '\n' ∨ c = '\r' then skipWs cs else c :: cs
  | [] => []

/-- Parse the body of a JSON string literal after the opening quote,
handling the `\x5c"` and `\x5c\x5c` escapes. -/
def parseStringBody : List Char → Option (String × List Char)
  | [] => none
  | c :: cs =>
    if c = quoteChar then some ("", cs)
    else if c = backslashChar then
      match cs with
      | c2 :: cs2 =>
        if c2 = quoteChar ∨ c2 = backslashChar then
          (parseStringBody cs2).map (fun p => (String.mk (c2 :: p.1.data), p.2))
        else none
      | [] => none
    else (parseStringBody cs).map (fun p => (String.mk (c :: p.1.data), p.2))

/-- Parse an optionally-signed integer literal. -/
def parseIntLit : List Char → Option (Int × List Char)
  | c :: cs =>
    if c = '-' then
      match cs.span (fun d => d.isDigit) with
      | ([], _) => none
      | (ds, rest) => some (-(Int.ofNat (String.mk ds).toNat!), rest)
    else
      match (c :: cs).span (fun d => d.isDigit) with
      | ([], _) => none
      | (ds, rest) => some (Int.ofNat (String.mk ds).toNat!, rest)
  | [] => none

mutual

/-- Parse one JSON value (fuel-indexed recursive descent). -/
def parseValue : Nat → List Char → Option (Json × List Char)
  | 0, _ => none
  | Nat.succ fuel, cs =>
    match skipWs cs with
    | [] => none
    | c :: rest =>
      if c = quoteChar then
        (parseStringBody rest).map (fun p => (.jstr p.1, p.2))
      else if c = '[' then
        match skipWs rest with
        | ']' :: rest2 => some (.jarr [], rest2)
        | rest2 => parseArrLoop fuel rest2
      else if c = lbraceChar then
        match skipWs rest with
        | c2 :: rest2 =>
          if c2 = rbraceChar then some (.jobj [], rest2)
          else parseObjLoop fuel (c2 :: rest2)
        | [] => none
      else
        match c :: rest with
        | 'n' :: 'u' :: 'l' :: 'l' :: r => some (.jnull, r)
        | 't' :: 'r' :: 'u' :: 'e' :: r => some (.jtrue, r)
        | 'f' :: 'a' :: 'l' :: 's' :: 'e' :: r => some (.jfalse, r)
        | cs' => (parseIntLit cs').map (fun p => (.jnum p.1, p.2))

/-- Parse the elements of a non-empty JSON array (after `[`). -/
def parseArrLoop : Nat → List Char → Option (Json × List Char)
  | 0, _ => none
  | Nat.succ fuel, cs =>
    match parseValue fuel cs with
    | none => none
    | some (j, rest) =>
      match skipWs rest with
      | ',' :: rest2 =>
        match parseArrLoop fuel rest2 with
        | some (.jarr xs, rest3) => some (.jarr (j :: xs), rest3)
        | _ => none
      | ']' :: rest2 => some (.jarr [j], rest2)
      | _ => none

/-- Parse the members of a non-empty JSON object (after the opening
brace). -/
def parseObjLoop : Nat → List Char → Option (Json × List Char)
  | 0, _ => none
  | Nat.succ fuel, cs =>
    match skipWs cs with
    | c :: rest =>
      if c = quoteChar then
        match parseStringBody rest with
        | none => none
        | some (k, rest2) =>
          match skipWs rest2 with
          | ':' :: rest3 =>
            match parseValue fuel rest3 with
            | none => none
            | some (v, rest4) =>
              match skipWs rest4 with
              | ',' :: rest5 =>
                match parseObjLoop fuel rest5 with
                | some (.jobj fs, rest6) => some (.jobj ((k, v) :: fs), rest6)
                | _ => none
              | c2 :: rest5 =>
                if c2 = rbraceChar then some (.jobj [(k, v)], rest5)
                else none
              | [] => none
          | _ => none
      else none
    | [] => none

end

/-- `json.NewDecoder(r).Decode(&v)` reads exactly one JSON value from the
stream: an empty or malformed stream is an error (`io.EOF` / a syntax
error), data after the first value is left unread. -/
def parseOne (s : String) : Except GoError Json :=
  match parseValue (s.length + 2) s.data with
  | some (j, _) => .ok j
  | none => .error (.decodeError "json decode failure")

/-- A Go slice: `none` is the nil slice, `some xs` a non-nil slice with
elements `xs`.  The distinction matters because the client's list
operations promise a non-nil result. -/
abbrev GoSlice (α : Type) := Option (List α)

/-- Decoding into a Go pointer target: per the `encoding/json`
documentation, JSON `null` sets the pointer to nil; any other value is
decoded into the pointee. -/
def decodePtr (dec : Json → Except GoError α) : Json → Except GoError (Option α)
  | .jnull => .ok none
  | j => (dec j).map some

/-- Decoding into a Go slice target: per the `encoding/json`
documentation, `null` leaves the slice unchanged, an empty JSON array
replaces the slice with a new empty (non-nil) slice, a non-empty array
resets the length and appends the decoded elements, and any other JSON
value is a type error. -/
def decodeSlice (dec : Json → Except GoError α) (init : GoSlice α) :
    Json → Except GoError (GoSlice α)
  | .jnull => .ok init
  | .jarr xs => (xs.mapM dec).map some
  | _ => .error (.decodeError "cannot unmarshal into slice")

/-- `json.NewDecoder(resp.Body).Decode(&v)`: a failing body read surfaces
as that read error; otherwise one JSON value is parsed from the body and
decoded into the target. -/
def decodeBody (f : Json → Except GoError α) : Except GoError String → Except GoError α
  | .error e => .error e
  | .ok s =>
    match parseOne s with
    | .error e => .error e
    | .ok j => f j

/-- Decode a JSON object's string field, processing members in order
(later duplicates overwrite, `null` leaves the zero value, a non-string
value is a type error), defaulting to the Go zero value `""`. -/
def getStringField (fs : List (String × Json)) (key : String) : Except GoError String :=
  fs.foldlM
    (fun acc kv =>
      if kv.1 = key then
        match kv.2 with
        | .jstr s => Except.ok s
        | .jnull => Except.ok acc
        | _ => Except.error (.decodeError ("cannot unmarshal field " ++ key))
      else Except.ok acc)
    ""

/-! ### Domain records

The container, image, engine, account, role, event, token, cluster-info
and service-key schemas belong to the external `citadel` and `shipyard`
packages; the spec treats them as opaque serializable records.  Each is
modelled with exactly the fields this client touches (`container.ID`,
`engine.Engine.ID`, `ServiceKey.Description`, the image payload of the
run scenario); the remaining records are opaque field lists passed
through the codec verbatim. -/

/-- Modelled from the spec: a container record (external `citadel`
schema); the client reads only its identifier. -/
structure Container where
  ID : String
deriving Repr, DecidableEq

def containerOfJson : Json → Except GoError Container
  | .jobj fs => (getStringField fs "id").map (fun s => { ID := s })
  | _ => .error (.decodeError "cannot unmarshal into Container")

def marshalContainer (c : Container) : String :=
  renderJson (.jobj [("id", .jstr c.ID)])

/-- Modelled from the spec: an image record (external `citadel` schema);
the run scenario exercises only its name. -/
structure Image where
  Name : String
deriving Repr, DecidableEq

def marshalImage (i : Image) : String :=
  renderJson (.jobj [("name", .jstr i.Name)])

/-- Modelled from the spec: the nested `citadel` engine record; the
client reads only its identifier (`engine.Engine.ID`). -/
structure CitadelEngine where
  ID : String
deriving Repr, DecidableEq

/-- Modelled from the spec: a `shipyard` engine record wrapping the
`citadel` engine. -/
structure Engine where
  Engine : CitadelEngine
deriving Repr, DecidableEq

def engineOfJson : Json → Except GoError Engine
  | .jobj fs =>
    fs.foldlM
      (fun acc kv =>
        if kv.1 = "engine" then
          match kv.2 with
          | .jobj efs => (getStringField efs "id").map (fun s => { Engine := { ID := s } })
          | .jnull => Except.ok acc
          | _ => Except.error (.decodeError "cannot unmarshal field engine")
        else Except.ok acc)
      { Engine := { ID := "" } }
  | _ => .error (.decodeError "cannot unmarshal into Engine")

def marshalEngine (e : Engine) : String :=
  renderJson (.jobj [("engine", .jobj [("id", .jstr e.Engine.ID)])])

/-- Modelled from the spec: an account record, opaque pass-through
payload. -/
structure Account where
  fields : List (String × Json)
deriving Repr

def accountOfJson : Json → Except GoError Account
  | .jobj fs => .ok { fields := fs }
  | _ => .error (.decodeError "cannot unmarshal into Account")

def marshalAccount (a : Account) : String :=
  renderJson (.jobj a.fields)

/-- Modelled from the spec: a role record, opaque pass-through payload. -/
structure Role where
  fields : List (String × Json)
deriving Repr

def roleOfJson : Json → Except GoError Role
  | .jobj fs => .ok { fields := fs }
  | _ => .error (.decodeError "cannot unmarshal into Role")

/-- Modelled from the spec: an event record, opaque pass-through
payload. -/
structure Event where
  fields : List (String × Json)
deriving Repr

def eventOfJson : Json → Except GoError Event
  | .jobj fs => .ok { fields := fs }
  | _ => .error (.decodeError "cannot unmarshal into Event")

/-- Modelled from the spec: an auth-token record, opaque pass-through
payload. -/
structure AuthToken where
  fields : List (String × Json)
deriving Repr

def authTokenOfJson : Json → Except GoError AuthToken
  | .jobj fs => .ok { fields := fs }
  | _ => .error (.decodeError "cannot unmarshal into AuthToken")

/-- Modelled from the spec: the cluster-info record, opaque pass-through
payload. -/
structure ClusterInfo where
  fields : List (String × Json)
deriving Repr

def clusterInfoOfJson : Json → Except GoError ClusterInfo
  | .jobj fs => .ok { fields := fs }
  | _ => .error (.decodeError "cannot unmarshal into ClusterInfo")

/-- Modelled from the spec: a service-key record (external `shipyard`
schema); the client constructs one from a description. -/
structure ServiceKey where
  Description : String
deriving Repr, DecidableEq

def serviceKeyOfJson : Json → Except GoError ServiceKey
  | .jobj fs => (getStringField fs "description").map (fun s => { Description := s })
  | _ => .error (.decodeError "cannot unmarshal into ServiceKey")

def marshalServiceKey (k : ServiceKey) : String :=
  renderJson (.jobj [("description", .jstr k.Description)])

/-! ### Public operations

Each public method of `Manager` marshals its input (marshalling of these
plain records cannot fail in Go, so it is total here), delegates to
`doRequest`, and on success decodes the response body.  The trace and the
manager value of the `doRequest` output are passed through unchanged, as
in the source. -/

/-- Output of a public operation: the Go `(value, error)` return, the
trace of issued requests, and the manager after the call. -/
structure OpOut (α : Type) where
  result : Except GoError α
  trace : List HttpRequest
  manager : Manager

/-- The uniform tail shared by every call-site:
`if err != nil \x7b return zero, err \x7d` followed by the operation's
success computation on the response; trace and manager pass through. -/
def finishOp (out : ExecOut) (f : HttpResponse → Except GoError α) : OpOut α :=
  match out.result with
  | .failure _ e => ⟨.error e, out.trace, out.manager⟩
  | .success resp => ⟨f resp, out.trace, out.manager⟩

/-- `Manager.Containers`: GET `/api/containers`, expect 200; decodes into
`containers := []*citadel.Container{}` (non-nil empty initial slice). -/
def Manager.Containers (w : World) (m : Manager) : OpOut (GoSlice (Option Container)) :=
  let out := doRequest w m "/api/containers" "GET" 200 none
  finishOp out
    (fun resp => decodeBody (decodeSlice (decodePtr containerOfJson) (some [])) resp.bodyRead)

/-- `Manager.Run`: POST `/api/containers?count=%d&pull=%v` with the
marshalled image as body, expect 201; decodes into
`var containers []*citadel.Container` (nil initial slice). -/
def Manager.Run (w : World) (m : Manager) (image : Image) (count : Int) (pull : Bool) :
    OpOut (GoSlice (Option Container)) :=
  let b := marshalImage image
  let out := doRequest w m
    ("/api/containers?count=" ++ toString count ++ "&pull=" ++
      (if pull then "true" else "false"))
    "POST" 201 (some b)
  finishOp out
    (fun resp => decodeBody (decodeSlice (decodePtr containerOfJson) none) resp.bodyRead)

/-- `Manager.Destroy`: DELETE `/api/containers/{id}` with the marshalled
container as body, expect 204; the response body is never touched. -/
def Manager.Destroy (w : World) (m : Manager) (container : Container) : OpOut Unit :=
  let b := marshalContainer container
  let out := doRequest w m ("/api/containers/" ++ container.ID) "DELETE" 204 (some b)
  finishOp out (fun _ => .ok ())

/-- `Manager.Engines`: GET `/api/engines`, expect 200; decodes into a
non-nil empty initial slice. -/
def Manager.Engines (w : World) (m : Manager) : OpOut (GoSlice (Option Engine)) :=
  let out := doRequest w m "/api/engines" "GET" 200 none
  finishOp out
    (fun resp => decodeBody (decodeSlice (decodePtr engineOfJson) (some [])) resp.bodyRead)

/-- `Manager.AddEngine`: POST `/api/engines` with the marshalled engine,
expect 201; the response body is never touched. -/
def Manager.AddEngine (w : World) (m : Manager) (engine : Engine) : OpOut Unit :=
  let b := marshalEngine engine
  let out := doRequest w m "/api/engines" "POST" 201 (some b)
  finishOp out (fun _ => .ok ())

/-- `Manager.RemoveEngine`: DELETE `/api/engines/{engine.Engine.ID}` with
no body, expect 204; the response body is never touched. -/
def Manager.RemoveEngine (w : World) (m : Manager) (engine : Engine) : OpOut Unit :=
  let out := doRequest w m ("/api/engines/" ++ engine.Engine.ID) "DELETE" 204 none
  finishOp out (fun _ => .ok ())

/-- `Manager.GetContainer`: GET `/api/containers/{id}`, expect 200;
decodes into `var container *citadel.Container`. -/
def Manager.GetContainer (w : World) (m : Manager) (id : String) :
    OpOut (Option Container) :=
  let out := doRequest w m ("/api/containers/" ++ id) "GET" 200 none
  finishOp out (fun resp => decodeBody (decodePtr containerOfJson) resp.bodyRead)

/-- `Manager.GetEngine`: GET `/api/engines/{id}`, expect 200; decodes
into `var engine *shipyard.Engine`. -/
def Manager.GetEngine (w : World) (m : Manager) (id : String) : OpOut (Option Engine) :=
  let out := doRequest w m ("/api/engines/" ++ id) "GET" 200 none
  finishOp out (fun resp => decodeBody (decodePtr engineOfJson) resp.bodyRead)

/-- `Manager.Info`: GET `/api/cluster/info`, expect 200; decodes into
`var info *citadel.ClusterInfo`. -/
def Manager.Info (w : World) (m : Manager) : OpOut (Option ClusterInfo) :=
  let out := doRequest w m "/api/cluster/info" "GET" 200 none
  finishOp out (fun resp => decodeBody (decodePtr clusterInfoOfJson) resp.bodyRead)

/-- `Manager.Events`: GET `/api/events`, expect 200; decodes into a
non-nil empty initial slice. -/
def Manager.Events (w : World) (m : Manager) : OpOut (GoSlice (Option Event)) :=
  let out := doRequest w m "/api/events" "GET" 200 none
  finishOp out
    (fun resp => decodeBody (decodeSlice (decodePtr eventOfJson) (some [])) resp.bodyRead)

/-- `Manager.Accounts`: GET `/api/accounts`, expect 200; decodes into a
non-nil empty initial slice. -/
def Manager.Accounts (w : World) (m : Manager) : OpOut (GoSlice (Option Account)) :=
  let out := doRequest w m "/api/accounts" "GET" 200 none
  finishOp out
    (fun resp => decodeBody (decodeSlice (decodePtr accountOfJson) (some [])) resp.bodyRead)

/-- `Manager.Roles`: GET `/api/roles`, expect 200; decodes into a non-nil
empty initial slice. -/
def Manager.Roles (w : World) (m : Manager) : OpOut (GoSlice (Option Role)) :=
  let out := doRequest w m "/api/roles" "GET" 200 none
  finishOp out
    (fun resp => decodeBody (decodeSlice (decodePtr roleOfJson) (some [])) resp.bodyRead)

/-- `Manager.Role`: GET `/api/roles/{name}`, expect 200; decodes into
`role := &shipyard.Role\x7b\x7d` (a pointer target). -/
def Manager.Role (w : World) (m : Manager) (name : String) : OpOut (Option Role) :=
  let out := doRequest w m ("/api/roles/" ++ name) "GET" 200 none
  finishOp out (fun resp => decodeBody (decodePtr roleOfJson) resp.bodyRead)

/-- `Manager.AddAccount`: POST `/api/accounts` with the marshalled
account, expect 204; the response body is never touched. -/
def Manager.AddAccount (w : World) (m : Manager) (account : Account) : OpOut Unit :=
  let b := marshalAccount account
  let out := doRequest w m "/api/accounts" "POST" 204 (some b)
  finishOp out (fun _ => .ok ())

/-- `Manager.DeleteAccount`: DELETE `/api/accounts` with the marshalled
account, expect 204; the response body is never touched. -/
def Manager.DeleteAccount (w : World) (m : Manager) (account : Account) : OpOut Unit :=
  let b := marshalAccount account
  let out := doRequest w m "/api/accounts" "DELETE" 204 (some b)
  finishOp out (fun _ => .ok ())

/-- `Manager.Login`: POST `/auth/login` with the marshalled credential
map, expect 200; Go marshals map keys in sorted order, so `password`
precedes `username`.  Decodes into `var token *shipyard.AuthToken`. -/
def Manager.Login (w : World) (m : Manager) (username password : String) :
    OpOut (Option AuthToken) :=
  let b := renderJson (.jobj [("password", .jstr password), ("username", .jstr username)])
  let out := doRequest w m "/auth/login" "POST" 200 (some b)
  finishOp out (fun resp => decodeBody (decodePtr authTokenOfJson) resp.bodyRead)

/-- `Manager.ChangePassword`: POST `/account/changepassword` with the
marshalled single-entry credential map, expect 200; the response body is
never touched. -/
def Manager.ChangePassword (w : World) (m : Manager) (password : String) : OpOut Unit :=
  let b := renderJson (.jobj [("password", .jstr password)])
  let out := doRequest w m "/account/changepassword" "POST" 200 (some b)
  finishOp out (fun _ => .ok ())

/-- `Manager.ServiceKeys`: GET `/api/servicekeys`, expect 200; decodes
into a non-nil empty initial slice. -/
def Manager.ServiceKeys (w : World) (m : Manager) : OpOut (GoSlice (Option ServiceKey)) :=
  let out := doRequest w m "/api/servicekeys" "GET" 200 none
  finishOp out
    (fun resp => decodeBody (decodeSlice (decodePtr serviceKeyOfJson) (some [])) resp.bodyRead)

/-- `Manager.NewServiceKey`: POST `/api/servicekeys` with the marshalled
key built from the description, expect 200; decodes into
`var key *shipyard.ServiceKey`. -/
def Manager.NewServiceKey (w : World) (m : Manager) (description : String) :
    OpOut (Option ServiceKey) :=
  let k : ServiceKey := { Description := description }
  let b := marshalServiceKey k
  let out := doRequest w m "/api/servicekeys" "POST" 200 (some b)
  finishOp out (fun resp => decodeBody (decodePtr serviceKeyOfJson) resp.bodyRead)

/-- `Manager.RemoveServiceKey`: DELETE `/api/servicekeys` with the
marshalled key, expect 204; the response body is never touched. -/
def Manager.RemoveServiceKey (w : World) (m : Manager) (key : ServiceKey) : OpOut Unit :=
  let b := marshalServiceKey key
  let out := doRequest w m "/api/servicekeys" "DELETE" 204 (some b)
  finishOp out (fun _ => .ok ())

/-- A transport that always answers with the given status code and body
read outcome, under a `NewRequest` that succeeds; used to exercise the
operations on concrete responses. -/
def okWorldB (status : Int) (body : Except GoError String) : World :=
  { newRequest := fun _ _ => none
    respond := fun _ => .ok { statusCode := status, bodyRead := body } }

/-- A transport that always answers with the given status code and a
successfully read body string. -/
def okWorld (status : Int) (body : String) : World :=
  okWorldB status (.ok body)

/-- A sample manager configured with a service-key (and user credentials,
to exercise the priority rule). -/
def skManager : Manager :=
  NewManager { Url := "http://h", ServiceKey := "sk", Username := "u", Token := "t" }

/-- A sample manager configured with user credentials only. -/
def userManager : Manager :=
  NewManager { Url := "http://h", ServiceKey := "", Username := "u", Token := "t" }

/-- The 201 response body of the spec's run scenario. -/
def runScenarioBody : String :=
  "[\x7b\"id\":\"a\"\x7d,\x7b\"id\":\"b\"\x7d,\x7b\"id\":\"c\"\x7d]"

/-! ### Theorems -/

/-- `doRequest` returns the manager it was given: no branch writes to it. -/
theorem doRequest_manager (w : World) (m : Manager) (path method : String)
    (expectedStatus : Int) (b : Option String) :
    (doRequest w m path method expectedStatus b).manager = m := by
  simp only [doRequest]
  cases w.newRequest method (buildUrl m path) with
  | some e => rfl
  | none =>
    cases w.respond (mkRequest m path method b) with
    | error e => rfl
    | ok resp =>
      dsimp only
      split
      · rfl
      · split
        · split <;> rfl
        · rfl

/-- The call-site tail passes the manager through unchanged. -/
theorem finishOp_manager (out : ExecOut) (f : HttpResponse → Except GoError α) :
    (finishOp out f).manager = out.manager := by
  cases h : out.result <;> simp [finishOp, h]

/-- Every request in the trace of `doRequest` is the single request it
builds via `mkRequest`. -/
theorem doRequest_issued (w : World) (m : Manager) (path method : String)
    (expectedStatus : Int) (b : Option String) (req : HttpRequest)
    (hmem : req ∈ (doRequest w m path method expectedStatus b).trace) :
    req = mkRequest m path method b := by
  simp only [doRequest] at hmem
  cases hn : w.newRequest method (buildUrl m path) with
  | some e => rw [hn] at hmem; simp at hmem
  | none =>
    rw [hn] at hmem
    dsimp only at hmem
    cases ht : w.respond (mkRequest m path method b) with
    | error e => rw [ht] at hmem; simpa using hmem
    | ok resp =>
      rw [ht] at hmem
      dsimp only at hmem
      split at hmem
      · simpa using hmem
      · split at hmem
        · split at hmem <;> simpa using hmem
        · simpa using hmem

/-- C1: whenever the transport delivers a response with HTTP status 401,
`doRequest` fails with the `ErrUnauthorized` sentinel, for every value of
`expectedStatus` (in particular `expectedStatus = 200`): the 401 check is
evaluated before the expected-status comparison. -/
theorem C1_status_401_is_unauthorized (w : World) (m : Manager) (path method : String)
    (expectedStatus : Int) (b : Option String) (resp : HttpResponse)
    (hn : w.newRequest method (buildUrl m path) = none)
    (ht : w.respond (mkRequest m path method b) = Except.ok resp)
    (h401 : resp.statusCode = 401) :
    (doRequest w m path method expectedStatus b).result =
      DoResult.failure (some resp) GoError.unauthorized := by
  simp only [doRequest]
  rw [hn]
  dsimp only
  rw [ht]
  dsimp only
  rw [if_pos h401]

/-- C1 witness: a call with `expectedStatus = 200` receiving a 401
response yields the Unauthorized sentinel, not an unexpected-status
error. -/
theorem C1_witness :
    (doRequest (okWorld 401 "denied") userManager "/api/containers" "GET" 200 none).result =
      DoResult.failure (some { statusCode := 401, bodyRead := Except.ok "denied" })
        GoError.unauthorized :=
  C1_status_401_is_unauthorized (okWorld 401 "denied") userManager "/api/containers" "GET"
    200 none { statusCode := 401, bodyRead := Except.ok "denied" } rfl rfl rfl

/-- C2: every request issued by the executor carries exactly one
authentication header, chosen by fixed priority: the service-key header
when the configured service-key is non-empty (the username/token header
is then absent), otherwise the composite access-token header
`username:token`, even when both components are empty. -/
theorem C2_exactly_one_auth_header (w : World) (m : Manager) (path method : String)
    (expectedStatus : Int) (b : Option String) (req : HttpRequest)
    (hmem : req ∈ (doRequest w m path method expectedStatus b).trace) :
    req.headers.length = 1 ∧
    (m.config.ServiceKey ≠ "" →
      req.headers = [("X-Service-Key", m.config.ServiceKey)]) ∧
    (m.config.ServiceKey = "" →
      req.headers = [("X-Access-Token", m.config.Username ++ ":" ++ m.config.Token)]) := by
  have hreq := doRequest_issued w m path method expectedStatus b req hmem
  subst hreq
  by_cases hk : m.config.ServiceKey = "" <;> simp [mkRequest, hk]

/-- C2 witness: with a service-key configured (alongside user
credentials) the single header is the service-key header; with no
service-key the single header is the access-token header. -/
theorem C2_witness :
    ((mkRequest skManager "/p" "GET" none).headers.length = 1 ∧
      (skManager.config.ServiceKey ≠ "" →
        (mkRequest skManager "/p" "GET" none).headers =
          [("X-Service-Key", skManager.config.ServiceKey)]) ∧
      (skManager.config.ServiceKey = "" →
        (mkRequest skManager "/p" "GET" none).headers =
          [("X-Access-Token", skManager.config.Username ++ ":" ++ skManager.config.Token)])) ∧
    ((mkRequest userManager "/p" "GET" none).headers.length = 1 ∧
      (userManager.config.ServiceKey ≠ "" →
        (mkRequest userManager "/p" "GET" none).headers =
          [("X-Service-Key", userManager.config.ServiceKey)]) ∧
      (userManager.config.ServiceKey = "" →
        (mkRequest userManager "/p" "GET" none).headers =
          [("X-Access-Token", userManager.config.Username ++ ":" ++ userManager.config.Token)])) :=
  ⟨C2_exactly_one_auth_header (okWorld 204 "") skManager "/p" "GET" 204 none
      (mkRequest skManager "/p" "GET" none) (List.Mem.head _),
    C2_exactly_one_auth_header (okWorld 204 "") userManager "/p" "GET" 204 none
      (mkRequest userManager "/p" "GET" none) (List.Mem.head _)⟩

/-- C3: when the transport succeeds and the response status equals the
operation's `expectedStatus` (and is not 401), `doRequest` succeeds and
hands back the transport's response unchanged — body unread and
unmodified, left for the caller's decoder. -/
theorem C3_expected_status_succeeds (w : World) (m : Manager) (path method : String)
    (expectedStatus : Int) (b : Option String) (resp : HttpResponse)
    (hn : w.newRequest method (buildUrl m path) = none)
    (ht : w.respond (mkRequest m path method b) = Except.ok resp)
    (h401 : resp.statusCode ≠ 401)
    (heq : resp.statusCode = expectedStatus) :
    (doRequest w m path method expectedStatus b).result = DoResult.success resp := by
  subst heq
  simp only [doRequest]
  rw [hn]
  dsimp only
  rw [ht]
  dsimp only
  rw [if_neg h401, if_neg (not_not_intro rfl)]

/-- C3 witness: a 200 response against `expectedStatus = 200` succeeds
carrying the body read outcome untouched. -/
theorem C3_witness :
    (doRequest (okWorld 200 "payload") userManager "/api/containers" "GET" 200 none).result =
      DoResult.success { statusCode := 200, bodyRead := Except.ok "payload" } :=
  C3_expected_status_succeeds (okWorld 200 "payload") userManager "/api/containers" "GET"
    200 none { statusCode := 200, bodyRead := Except.ok "payload" } rfl rfl
    (by decide) rfl

/-- C4: when the transport succeeds and the status is neither 401 nor the
expected status, and the body is read to completion successfully,
`doRequest` fails with `errors.New` of the verbatim body text (not parsed
as structured data). -/
theorem C4_unexpected_status_error_is_body (w : World) (m : Manager) (path method : String)
    (expectedStatus : Int) (b : Option String) (resp : HttpResponse) (c : String)
    (hn : w.newRequest method (buildUrl m path) = none)
    (ht : w.respond (mkRequest m path method b) = Except.ok resp)
    (h401 : resp.statusCode ≠ 401)
    (hne : resp.statusCode ≠ expectedStatus)
    (hb : resp.bodyRead = Except.ok c) :
    (doRequest w m path method expectedStatus b).result =
      DoResult.failure (some resp) (GoError.newError c) := by
  simp only [doRequest]
  rw [hn]
  dsimp only
  rw [ht]
  dsimp only
  rw [if_neg h401, if_pos hne, hb]

/-- C4 witness: expected 204, got 500 with body `boom`: the error message
is exactly the body text. -/
theorem C4_witness :
    (doRequest (okWorld 500 "boom") userManager "/api/accounts" "DELETE" 204 none).result =
      DoResult.failure (some { statusCode := 500, bodyRead := Except.ok "boom" })
        (GoError.newError "boom") :=
  C4_unexpected_status_error_is_body (okWorld 500 "boom") userManager "/api/accounts"
    "DELETE" 204 none { statusCode := 500, bodyRead := Except.ok "boom" } "boom" rfl rfl
    (by decide) (by decide) rfl

/-- C5: the request URL is the plain string concatenation of the
configured base URL and the path — duplicate slashes survive (a
trailing-slash base and a leading-slash path keep both) and the path is
not escaped (spaces and query characters pass through verbatim). -/
theorem C5_url_is_concatenation :
    (∀ (m : Manager) (path : String), buildUrl m path = m.config.Url ++ path) ∧
    buildUrl (NewManager { Url := "http://h/", ServiceKey := "", Username := "", Token := "" })
        "//a b?q=1" = "http://h///a b?q=1" :=
  ⟨fun _ _ => rfl, by decide⟩

/-- C6: every list-returning operation (Containers, Run, Engines, Events,
Accounts, Roles, ServiceKeys) decodes a successful response with body
`[]` into the non-nil empty slice, and surfaces an absent (empty) or
malformed body at a success status as a decode failure rather than
treating it as no results. -/
theorem C6_list_decoding (m : Manager) (img : Image) (count : Int) (pull : Bool) :
    (Manager.Containers (okWorld 200 "[]") m).result = Except.ok (some []) ∧
    (Manager.Run (okWorld 201 "[]") m img count pull).result = Except.ok (some []) ∧
    (Manager.Engines (okWorld 200 "[]") m).result = Except.ok (some []) ∧
    (Manager.Events (okWorld 200 "[]") m).result = Except.ok (some []) ∧
    (Manager.Accounts (okWorld 200 "[]") m).result = Except.ok (some []) ∧
    (Manager.Roles (okWorld 200 "[]") m).result = Except.ok (some []) ∧
    (Manager.ServiceKeys (okWorld 200 "[]") m).result = Except.ok (some []) ∧
    (Manager.Containers (okWorld 200 "") m).result =
      Except.error (GoError.decodeError "json decode failure") ∧
    (Manager.Run (okWorld 201 "") m img count pull).result =
      Except.error (GoError.decodeError "json decode failure") ∧
    (Manager.Engines (okWorld 200 "") m).result =
      Except.error (GoError.decodeError "json decode failure") ∧
    (Manager.Events (okWorld 200 "") m).result =
      Except.error (GoError.decodeError "json decode failure") ∧
    (Manager.Accounts (okWorld 200 "") m).result =
      Except.error (GoError.decodeError "json decode failure") ∧
    (Manager.Roles (okWorld 200 "") m).result =
      Except.error (GoError.decodeError "json decode failure") ∧
    (Manager.ServiceKeys (okWorld 200 "") m).result =
      Except.error (GoError.decodeError "json decode failure") ∧
    (Manager.Containers (okWorld 200 "[") m).result =
      Except.error (GoError.decodeError "json decode failure") ∧
    (Manager.Run (okWorld 201 "[") m img count pull).result =
      Except.error (GoError.decodeError "json decode failure") ∧
    (Manager.Engines (okWorld 200 "[") m).result =
      Except.error (GoError.decodeError "json decode failure") ∧
    (Manager.Events (okWorld 200 "[") m).result =
      Except.error (GoError.decodeError "json decode failure") ∧
    (Manager.Accounts (okWorld 200 "[") m).result =
      Except.error (GoError.decodeError "json decode failure") ∧
    (Manager.Roles (okWorld 200 "[") m).result =
      Except.error (GoError.decodeError "json decode failure") ∧
    (Manager.ServiceKeys (okWorld 200 "[") m).result =
      Except.error (GoError.decodeError "json decode failure") :=
  ⟨rfl, rfl, rfl, rfl, rfl, rfl, rfl, rfl, rfl, rfl, rfl, rfl, rfl, rfl, rfl, rfl,
    rfl, rfl, rfl, rfl, rfl⟩

/-- C7: `Run(image=nginx, count=3, pull=true)` issues exactly one POST
request to `/api/containers?count=3&pull=true` (relative to the base
URL) with the JSON-encoded image as body; its expected status is 201 (a
200 response is an unexpected-status error), and a 201 body
`[{"id":"a"},{"id":"b"},{"id":"c"}]` decodes to the three containers in
array order. -/
theorem C7_run_scenario (m : Manager) :
    (Manager.Run (okWorld 201 runScenarioBody) m { Name := "nginx" } 3 true).result =
      Except.ok (some [some { ID := "a" }, some { ID := "b" }, some { ID := "c" }]) ∧
    (Manager.Run (okWorld 201 runScenarioBody) m { Name := "nginx" } 3 true).trace =
      [mkRequest m "/api/containers?count=3&pull=true" "POST"
        (some (marshalImage { Name := "nginx" }))] ∧
    (mkRequest m "/api/containers?count=3&pull=true" "POST"
        (some (marshalImage { Name := "nginx" }))).method = "POST" ∧
    (mkRequest m "/api/containers?count=3&pull=true" "POST"
        (some (marshalImage { Name := "nginx" }))).url =
      m.config.Url ++ "/api/containers?count=3&pull=true" ∧
    (mkRequest m "/api/containers?count=3&pull=true" "POST"
        (some (marshalImage { Name := "nginx" }))).body =
      marshalImage { Name := "nginx" } ∧
    (Manager.Run (okWorld 200 "oops") m { Name := "nginx" } 3 true).result =
      Except.error (GoError.newError "oops") :=
  ⟨rfl, rfl, rfl, rfl, rfl, rfl⟩

/-- C8: no public operation mutates the manager: for every world and
every input, the manager (hence the configuration it holds) after the
call is the one before the call. -/
theorem C8_no_state_mutation (w : World) (m : Manager) (img : Image) (count : Int)
    (pull : Bool) (c : Container) (eng : Engine) (acct : Account) (k : ServiceKey)
    (id name username password description : String) :
    (Manager.Containers w m).manager = m ∧
    (Manager.Run w m img count pull).manager = m ∧
    (Manager.Destroy w m c).manager = m ∧
    (Manager.Engines w m).manager = m ∧
    (Manager.AddEngine w m eng).manager = m ∧
    (Manager.RemoveEngine w m eng).manager = m ∧
    (Manager.GetContainer w m id).manager = m ∧
    (Manager.GetEngine w m id).manager = m ∧
    (Manager.Info w m).manager = m ∧
    (Manager.Events w m).manager = m ∧
    (Manager.Accounts w m).manager = m ∧
    (Manager.Roles w m).manager = m ∧
    (Manager.Role w m name).manager = m ∧
    (Manager.AddAccount w m acct).manager = m ∧
    (Manager.DeleteAccount w m acct).manager = m ∧
    (Manager.Login w m username password).manager = m ∧
    (Manager.ChangePassword w m password).manager = m ∧
    (Manager.ServiceKeys w m).manager = m ∧
    (Manager.NewServiceKey w m description).manager = m ∧
    (Manager.RemoveServiceKey w m k).manager = m := by
  simp [Manager.Containers, Manager.Run, Manager.Destroy, Manager.Engines,
    Manager.AddEngine, Manager.RemoveEngine, Manager.GetContainer, Manager.GetEngine,
    Manager.Info, Manager.Events, Manager.Accounts, Manager.Roles, Manager.Role,
    Manager.AddAccount, Manager.DeleteAccount, Manager.Login, Manager.ChangePassword,
    Manager.ServiceKeys, Manager.NewServiceKey, Manager.RemoveServiceKey,
    finishOp_manager, doRequest_manager]

/-- C9: when the status is neither 401 nor the expected status and
reading the body to completion itself fails, `doRequest` returns that
read error with a nil response — the body-as-message contract applies
only when the read succeeds. -/
theorem C9_body_read_error_propagates (w : World) (m : Manager) (path method : String)
    (expectedStatus : Int) (b : Option String) (resp : HttpResponse) (e : GoError)
    (hn : w.newRequest method (buildUrl m path) = none)
    (ht : w.respond (mkRequest m path method b) = Except.ok resp)
    (h401 : resp.statusCode ≠ 401)
    (hne : resp.statusCode ≠ expectedStatus)
    (hb : resp.bodyRead = Except.error e) :
    (doRequest w m path method expectedStatus b).result = DoResult.failure none e := by
  simp only [doRequest]
  rw [hn]
  dsimp only
  rw [ht]
  dsimp only
  rw [if_neg h401, if_pos hne, hb]

/-- C9 witness: expected 204, got 500 with a failing body read: the read
error itself comes back, with a nil response. -/
theorem C9_witness :
    (doRequest (okWorldB 500 (Except.error (GoError.other "read failed"))) userManager
        "/api/accounts" "DELETE" 204 none).result =
      DoResult.failure none (GoError.other "read failed") :=
  C9_body_read_error_propagates (okWorldB 500 (Except.error (GoError.other "read failed")))
    userManager "/api/accounts" "DELETE" 204 none
    { statusCode := 500, bodyRead := Except.error (GoError.other "read failed") }
    (GoError.other "read failed") rfl rfl (by decide) (by decide) rfl

/-- C10: the operations whose success response is bodyless or undecoded
(Destroy, AddEngine, RemoveEngine, AddAccount, DeleteAccount,
ChangePassword, RemoveServiceKey) succeed on the expected status without
ever reading or decoding the body: any body-read outcome, including a
read failure or malformed content, is ignored. -/
theorem C10_bodyless_success_ignores_body (m : Manager) (body : Except GoError String)
    (c : Container) (eng : Engine) (acct : Account) (k : ServiceKey)
    (password : String) :
    (Manager.Destroy (okWorldB 204 body) m c).result = Except.ok () ∧
    (Manager.AddEngine (okWorldB 201 body) m eng).result = Except.ok () ∧
    (Manager.RemoveEngine (okWorldB 204 body) m eng).result = Except.ok () ∧
    (Manager.AddAccount (okWorldB 204 body) m acct).result = Except.ok () ∧
    (Manager.DeleteAccount (okWorldB 204 body) m acct).result = Except.ok () ∧
    (Manager.ChangePassword (okWorldB 200 body) m password).result = Except.ok () ∧
    (Manager.RemoveServiceKey (okWorldB 204 body) m k).result = Except.ok () :=
  ⟨rfl, rfl, rfl, rfl, rfl, rfl, rfl⟩

end Shipyard
